import Mathlib

/-!
Shallow embedding of the Tower Trials game core (Angular/TypeScript):
`game-engine.service.ts` (level generation, floor progression, walkability),
`player.service.ts` (player stats, XP, attack, damage) and
`enemy.service.ts` (enemy spawning, per-type stats, attack resolution).

JavaScript numbers are modelled as real numbers; `Math.random()` is
modelled as an explicit stream `r : ℕ → ℝ` of draws (each in `[0,1)`)
together with a cursor that is threaded through every definition in the
exact order the source consumes draws; `Date.now()` is an explicit
`now : ℝ` parameter.  Mutation of service state becomes explicit state
passing.
-/

open Classical

namespace TowerTrials

/-- Total list lookup with a default value (models a JS in-bounds array
access; theorems that rely on it carry explicit bounds hypotheses). -/
def nthD {α : Type} : List α → ℕ → α → α
  | [], _, d => d
  | a :: _, 0, _ => a
  | _ :: as, n + 1, d => nthD as n d

/-- Point update of a list (models `arr[i] = v` style mutation; out of
range it is a no-op, matching that a JS write at a bad index does not
change any array slot). -/
def updAt {α : Type} : List α → ℕ → (α → α) → List α
  | [], _, _ => []
  | a :: as, 0, f => f a :: as
  | a :: as, n + 1, f => a :: updAt as n f

theorem nthD_nil {α : Type} (n : ℕ) (d : α) : nthD ([] : List α) n d = d := by
  cases n <;> rfl

theorem nthD_cons_zero {α : Type} (a : α) (as : List α) (d : α) :
    nthD (a :: as) 0 d = a := rfl

theorem nthD_cons_succ {α : Type} (a : α) (as : List α) (n : ℕ) (d : α) :
    nthD (a :: as) (n + 1) d = nthD as n d := rfl

theorem updAt_length {α : Type} (l : List α) (n : ℕ) (f : α → α) :
    (updAt l n f).length = l.length := by
  induction l generalizing n with
  | nil => rfl
  | cons a as ih =>
    cases n with
    | zero => rfl
    | succ m => simpa [updAt] using ih m

theorem nthD_updAt {α : Type} (l : List α) (i j : ℕ) (f : α → α) (d : α) :
    nthD (updAt l i f) j d =
      if i = j ∧ j < l.length then f (nthD l j d) else nthD l j d := by
  induction l generalizing i j with
  | nil => simp [updAt, nthD_nil]
  | cons a as ih =>
    cases i with
    | zero =>
      cases j with
      | zero => simp [updAt, nthD_cons_zero]
      | succ m => simp [updAt, nthD_cons_succ]
    | succ n =>
      cases j with
      | zero => simp [updAt, nthD_cons_zero]
      | succ m =>
        simp only [updAt, nthD_cons_succ, ih n m]
        by_cases h : n = m ∧ m < as.length
        · rw [if_pos h, if_pos ⟨by omega, by simpa using Nat.succ_lt_succ h.2⟩]
        · rw [if_neg h, if_neg (by simpa [Nat.succ_lt_succ_iff, Nat.succ_inj] using h)]

theorem nthD_mem {α : Type} (l : List α) (n : ℕ) (d : α) (h : n < l.length) :
    nthD l n d ∈ l := by
  induction l generalizing n with
  | nil => simp at h
  | cons a as ih =>
    cases n with
    | zero => simp [nthD_cons_zero]
    | succ m =>
      simp only [nthD_cons_succ]
      exact List.mem_cons_of_mem _ (ih m (by simpa using Nat.lt_of_succ_lt_succ h))

/-! ### Tile grid (`game-engine.service.ts`) -/

/-- Source `Tile.type` values: `'floor' | 'wall' | 'exit' | 'entrance'`. -/
inductive TileType : Type where
  | floor : TileType
  | wall : TileType
  | exit : TileType
  | entrance : TileType
deriving DecidableEq

/-- Interface `Tile` from `game-engine.service.ts`. -/
structure Tile : Type where
  x : ℕ
  y : ℕ
  type : TileType
  walkable : Bool
deriving DecidableEq

/-- Default result of an out-of-range tile read (never relevant under the
bounds hypotheses carried by the theorems below). -/
def defTile : Tile := ⟨0, 0, TileType.wall, false⟩

abbrev Grid : Type := List (List Tile)

/-- Source `this.levelWidth = 50`. -/
def levelWidth : ℕ := 50

/-- Source `this.levelHeight = 50`. -/
def levelHeight : ℕ := 50

/-- Source `this.tileSize = 32`. -/
noncomputable def tileSize : ℝ := 32

/-- Source `this.tiles[y][x]` (row index first, as in the source). -/
def tileAt (g : Grid) (x y : ℕ) : Tile := nthD (nthD g y []) x defTile

/-- The grid has the shape produced by `generateLevel`:
`levelHeight` rows of `levelWidth` tiles each. -/
def GridDims (g : Grid) : Prop :=
  g.length = levelHeight ∧ ∀ row ∈ g, row.length = levelWidth

/-- Replace the tile at integer coordinates by a fresh floor tile:
`this.tiles[y][x] = { x, y, type: 'floor', walkable: true }`.  Negative
indices leave the grid unchanged (a JS write at a negative index does not
touch any array slot). -/
def setFloorAt (g : Grid) (x y : ℤ) : Grid :=
  if x < 0 ∨ y < 0 then g
  else updAt g y.toNat (fun row => updAt row x.toNat (fun _ => ⟨x.toNat, y.toNat, TileType.floor, true⟩))

/-- Mutate only the `type` field of a tile: `this.tiles[y][x].type = ty`. -/
def setTypeAt (g : Grid) (x y : ℕ) (ty : TileType) : Grid :=
  updAt g y (fun row => updAt row x (fun t => { t with type := ty }))

/-- Source `isWalkable(x, y)` from `game-engine.service.ts`: derive tile indices
with `Math.floor(coord / tileSize)`, reject out-of-bounds indices, and
otherwise read the stored tile's `walkable` flag. -/
noncomputable def isWalkable (g : Grid) (x y : ℝ) : Bool :=
  let tileX : ℤ := ⌊x / tileSize⌋
  let tileY : ℤ := ⌊y / tileSize⌋
  if tileX < 0 ∨ (levelWidth : ℤ) ≤ tileX ∨ tileY < 0 ∨ (levelHeight : ℤ) ≤ tileY then
    false
  else
    (tileAt g tileX.toNat tileY.toNat).walkable

/-! ### Player service (`player.service.ts`) -/

/-- Interface `Player` from `player.service.ts`.  `level` is a counter
starting at 1; all other numeric fields are JS numbers. -/
structure Player : Type where
  x : ℝ
  y : ℝ
  width : ℝ
  height : ℝ
  health : ℝ
  maxHealth : ℝ
  xp : ℝ
  level : ℕ
  damage : ℝ
  speed : ℝ
  attackSpeed : ℝ
  lastAttackTime : ℝ
  facing : ℝ
  hasRegeneration : Bool
  lastRegenTime : ℝ

/-- Interface `Projectile` from `player.service.ts`. -/
structure Projectile : Type where
  x : ℝ
  y : ℝ
  vx : ℝ
  vy : ℝ
  damage : ℝ
  lifetime : ℝ

/-- The default player assignment used both for the initial field value
and inside `resetPlayer()`. -/
noncomputable def defaultPlayer : Player :=
  { x := 400, y := 300, width := 24, height := 24, health := 100,
    maxHealth := 100, xp := 0, level := 1, damage := 10, speed := 150,
    attackSpeed := 1, lastAttackTime := 0, facing := 0,
    hasRegeneration := false, lastRegenTime := 0 }

/-- State owned by `PlayerService`: the player record plus its projectile
list. -/
structure PState : Type where
  player : Player
  projectiles : List Projectile

/-- Source `resetPlayer()`: reassign the fixed default player record and clear
the projectile list. -/
noncomputable def resetPlayer (_s : PState) : PState :=
  { player := defaultPlayer, projectiles := [] }

/-- Source `setPosition(x, y)`. -/
def setPosition (p : Player) (x y : ℝ) : Player := { p with x := x, y := y }

/-- Source `attack()`: push one projectile from the player's position along
`facing` at speed 300 with the player's damage and a 2000 ms lifetime. -/
noncomputable def attackProjectile (p : Player) : Projectile :=
  { x := p.x, y := p.y,
    vx := Real.cos p.facing * 300,
    vy := Real.sin p.facing * 300,
    damage := p.damage,
    lifetime := 2000 }

/-- Source `handleAttack()` for one frame at wall-clock time `now` with the
current attack-input flag: fire only when the input is held and more
than `1000 / attackSpeed` ms have elapsed since the last shot. -/
noncomputable def handleAttack (s : PState) (attackInput : Bool) (now : ℝ) : PState :=
  if attackInput then
    let attackCooldown := 1000 / s.player.attackSpeed
    if now - s.player.lastAttackTime > attackCooldown then
      { player := { s.player with lastAttackTime := now },
        projectiles := s.projectiles ++ [attackProjectile s.player] }
    else s
  else s

/-- Source `takeDamage(damage)`: clamp health below at 0 (death callback elided —
it only flips the engine's state flag). -/
noncomputable def takeDamage (p : Player) (damage : ℝ) : Player :=
  { p with health := max 0 (p.health - damage) }

/-- Source `handleRegeneration(deltaTime)` at wall-clock time `now`: heal +2
(clamped to `maxHealth`) at most once per 1000 ms while the upgrade is
enabled and health is below maximum. -/
noncomputable def handleRegeneration (p : Player) (now : ℝ) : Player :=
  if p.hasRegeneration ∧ p.health < p.maxHealth then
    if now - p.lastRegenTime > 1000 then
      { p with health := min p.maxHealth (p.health + 2), lastRegenTime := now }
    else p
  else p

/-- Source `getXPRequirement(level)`: `level * 100`. -/
noncomputable def getXPRequirement (level : ℕ) : ℝ := (level : ℝ) * 100

/-- Source `levelUp()`: increment the level and zero the XP (the level-up-screen
callback only flips the engine's state flag). -/
noncomputable def levelUp (p : Player) : Player :=
  { p with level := p.level + 1, xp := 0 }

/-- Source `gainXP(amount)`: accumulate, then run the single-step level-up check
against `getXPRequirement(level)`. -/
noncomputable def gainXP (p : Player) (amount : ℝ) : Player :=
  let p1 := { p with xp := p.xp + amount }
  if p1.xp ≥ getXPRequirement p1.level then levelUp p1 else p1

/-- Source `upgradeMaxHealth(amount)`: raise the cap and heal by the same
amount. -/
noncomputable def upgradeMaxHealth (p : Player) (amount : ℝ) : Player :=
  { p with maxHealth := p.maxHealth + amount, health := p.health + amount }

/-- Source `upgradeDamage(amount)`. -/
noncomputable def upgradeDamage (p : Player) (amount : ℝ) : Player :=
  { p with damage := p.damage + amount }

/-- Source `upgradeSpeed(multiplier)`. -/
noncomputable def upgradeSpeed (p : Player) (multiplier : ℝ) : Player :=
  { p with speed := p.speed * (1 + multiplier) }

/-- Source `upgradeAttackSpeed(multiplier)`. -/
noncomputable def upgradeAttackSpeed (p : Player) (multiplier : ℝ) : Player :=
  { p with attackSpeed := p.attackSpeed * (1 + multiplier) }

/-- Source `enableRegeneration()` at wall-clock time `now`. -/
def enableRegeneration (p : Player) (now : ℝ) : Player :=
  { p with hasRegeneration := true, lastRegenTime := now }

/-! ### Enemy service (`enemy.service.ts`) -/

/-- Source `Enemy.type` values: `'melee' | 'ranged' | 'fast' | 'boss'`. -/
inductive EType : Type where
  | melee : EType
  | ranged : EType
  | fast : EType
  | boss : EType
deriving DecidableEq

/-- Interface `Enemy` from `enemy.service.ts`.  Ids are issued from the
service's monotonic `nextEnemyId` counter (the source stores its decimal
string; the counter value itself is kept here). -/
structure Enemy : Type where
  id : ℕ
  x : ℝ
  y : ℝ
  radius : ℝ
  health : ℝ
  maxHealth : ℝ
  damage : ℝ
  speed : ℝ
  type : EType
  attackCooldown : ℝ
  lastAttackTime : ℝ
  targetX : ℝ
  targetY : ℝ
  isAttacking : Bool
  patrolDirection : ℝ
  lastDirectionChange : ℝ
  color : String
  xpValue : ℝ

/-- Interface `EnemyProjectile` from `enemy.service.ts`. -/
structure EnemyProjectile : Type where
  x : ℝ
  y : ℝ
  vx : ℝ
  vy : ℝ
  damage : ℝ
  lifetime : ℝ

/-- Per-type base stats bundle built by the `switch` in `createEnemy`. -/
structure BaseStats : Type where
  health : ℝ
  damage : ℝ
  speed : ℝ
  attackCooldown : ℝ
  radius : ℝ
  color : String
  xpValue : ℝ

/-- The `switch (type)` of `createEnemy`: per-type base stats with the
floor multipliers already applied to health and damage, exactly as in the
source. -/
noncomputable def enemyBaseStats (t : EType) (healthMultiplier damageMultiplier : ℝ) : BaseStats :=
  match t with
  | EType.melee =>
    { health := 30 * healthMultiplier, damage := 15 * damageMultiplier,
      speed := 80, attackCooldown := 1500, radius := 16,
      color := "#ff4444", xpValue := 10 }
  | EType.ranged =>
    { health := 20 * healthMultiplier, damage := 12 * damageMultiplier,
      speed := 60, attackCooldown := 2000, radius := 14,
      color := "#4444ff", xpValue := 15 }
  | EType.fast =>
    { health := 15 * healthMultiplier, damage := 8 * damageMultiplier,
      speed := 120, attackCooldown := 800, radius := 12,
      color := "#ff44ff", xpValue := 12 }
  | EType.boss =>
    { health := 200 * healthMultiplier, damage := 25 * damageMultiplier,
      speed := 40, attackCooldown := 1000, radius := 32,
      color := "#ffaa00", xpValue := 100 }

/-- Source `createEnemy(type, x, y, floor)`.  `eid` is the value drawn from the
`nextEnemyId` counter, `patrolDraw` the `Math.random()` draw used for the
initial patrol direction, and `now` the `Date.now()` timestamp. -/
noncomputable def createEnemy (t : EType) (x y : ℝ) (floor : ℕ) (eid : ℕ)
    (patrolDraw : ℝ) (now : ℝ) : Enemy :=
  let healthMultiplier : ℝ := 1 + ((floor : ℝ) - 1) * 0.3
  let damageMultiplier : ℝ := 1 + ((floor : ℝ) - 1) * 0.2
  let baseStats := enemyBaseStats t healthMultiplier damageMultiplier
  { id := eid, x := x, y := y, type := t,
    health := baseStats.health, maxHealth := baseStats.health,
    damage := baseStats.damage, speed := baseStats.speed,
    attackCooldown := baseStats.attackCooldown, radius := baseStats.radius,
    color := baseStats.color, xpValue := baseStats.xpValue,
    lastAttackTime := 0, targetX := x, targetY := y, isAttacking := false,
    patrolDirection := patrolDraw * (Real.pi * 2),
    lastDirectionChange := now }

/-- State owned by `EnemyService`: the live enemy collection, the enemy
projectile list, and the monotonic id counter. -/
structure EState : Type where
  enemies : List Enemy
  enemyProjectiles : List EnemyProjectile
  nextEnemyId : ℕ

/-- The `do … while (!isWalkable(x, y) && attempts < 50)` rejection loop
of `spawnRandomEnemy`, drawing two coordinates in `[0,1600)` per attempt.
Returns the last drawn position, the new draw cursor, and the final
`attempts` counter.  Terminates because `attempts` is bumped every pass
and the loop guard requires `attempts < 50`. -/
noncomputable def drawPosition (walk : ℝ → ℝ → Bool) (r : ℕ → ℝ) (k : ℕ)
    (attempts : ℕ) : (ℝ × ℝ) × ℕ × ℕ :=
  let x := r k * 1600
  let y := r (k + 1) * 1600
  let a := attempts + 1
  if walk x y = false ∧ a < 50 then
    drawPosition walk r (k + 2) a
  else
    ((x, y), k + 2, a)
termination_by 50 - attempts
decreasing_by
  rename_i h
  omega

/-- The fixed list `enemyTypes` of `spawnRandomEnemy`. -/
def enemyTypes : List EType := [EType.melee, EType.ranged, EType.fast]

/-- Source `spawnRandomEnemy(floor)`: a uniformly drawn type among
melee/ranged/fast, a rejection-sampled walkable position (fallback
`(800, 800)` once `attempts` reaches 50), then `createEnemy` and a push
onto the live collection. -/
noncomputable def spawnRandomEnemy (walk : ℝ → ℝ → Bool) (r : ℕ → ℝ) (now : ℝ)
    (floor : ℕ) (s : EState) (k : ℕ) : EState × ℕ :=
  let typeIdx : ℕ := (⌊r k * 3⌋).toNat
  let t := nthD enemyTypes typeIdx EType.melee
  let res := drawPosition walk r (k + 1) 0
  let pos := if 50 ≤ res.2.2 then ((800 : ℝ), (800 : ℝ)) else res.1
  let k1 := res.2.1
  let e := createEnemy t pos.1 pos.2 floor s.nextEnemyId (r k1) now
  ({ s with enemies := s.enemies ++ [e], nextEnemyId := s.nextEnemyId + 1 }, k1 + 1)

/-- The `for (let i = 0; i < enemyCount; i++) this.spawnRandomEnemy(floor)`
loop. -/
noncomputable def spawnLoop (walk : ℝ → ℝ → Bool) (r : ℕ → ℝ) (now : ℝ)
    (floor : ℕ) : ℕ → EState × ℕ → EState × ℕ
  | 0, st => st
  | n + 1, st => spawnLoop walk r now floor n (spawnRandomEnemy walk r now floor st.1 st.2)

/-- Source `spawnEnemiesForFloor(floor)`: clear both collections, then spawn
`min(3 + ⌊floor / 2⌋, 15)` random enemies. -/
noncomputable def spawnEnemiesForFloor (walk : ℝ → ℝ → Bool) (r : ℕ → ℝ) (now : ℝ)
    (floor : ℕ) (s : EState) (k : ℕ) : EState × ℕ :=
  let s0 : EState := { s with enemies := [], enemyProjectiles := [] }
  let baseEnemyCount := 3 + floor / 2
  let enemyCount := min baseEnemyCount 15
  spawnLoop walk r now floor enemyCount (s0, k)

/-- Source `spawnBoss()`: one `boss`-type enemy at the fixed centre `(800, 800)`
of the level, using the engine's current floor. -/
noncomputable def spawnBoss (r : ℕ → ℝ) (now : ℝ) (currentFloor : ℕ)
    (s : EState) (k : ℕ) : EState × ℕ :=
  let boss := createEnemy EType.boss 800 800 currentFloor s.nextEnemyId (r k) now
  ({ s with enemies := s.enemies ++ [boss], nextEnemyId := s.nextEnemyId + 1 }, k + 1)

/-- Source `Math.atan2(y, x)`: the standard-library two-argument arctangent,
written out by sign cases over `Real.arctan`. -/
noncomputable def matan2 (y x : ℝ) : ℝ :=
  if 0 < x then Real.arctan (y / x)
  else if x < 0 then
    (if 0 ≤ y then Real.arctan (y / x) + Real.pi else Real.arctan (y / x) - Real.pi)
  else
    (if 0 < y then Real.pi / 2 else if y < 0 then -(Real.pi / 2) else 0)

/-- Source `createEnemyProjectile(enemy, player, angleOffset = 0)`: a 150 units/s
projectile from the enemy's position, aimed `angleOffset` radians off the
direction to the player, carrying the enemy's damage, lifetime 3000 ms. -/
noncomputable def createEnemyProjectile (e : Enemy) (px py : ℝ)
    (angleOffset : ℝ) : EnemyProjectile :=
  let dx := px - e.x
  let dy := py - e.y
  let angle := matan2 dy dx + angleOffset
  let speed : ℝ := 150
  { x := e.x, y := e.y,
    vx := Real.cos angle * speed,
    vy := Real.sin angle * speed,
    damage := e.damage,
    lifetime := 3000 }

/-- Result of one `updateEnemyAttack(enemy, player)` call: the (possibly
cooldown-stamped) enemy, the projectiles pushed during the call, and the
damage dealt to the player via `takeDamage` (0 when none). -/
structure AttackResult : Type where
  enemy : Enemy
  newProjectiles : List EnemyProjectile
  playerDamage : ℝ

/-- Source `updateEnemyAttack(enemy, player)` at wall-clock time `now`: bail out
unless `isAttacking` is set and the per-enemy cooldown has elapsed; then
melee/fast deal contact damage only within distance 40, ranged spawn one
projectile at the player, and boss spawns the 0 / −0.3 / +0.3 radian
three-shot spread. -/
noncomputable def updateEnemyAttack (e : Enemy) (px py : ℝ) (now : ℝ) : AttackResult :=
  if e.isAttacking = false then ⟨e, [], 0⟩
  else if now - e.lastAttackTime < e.attackCooldown then ⟨e, [], 0⟩
  else
    let e1 := { e with lastAttackTime := now }
    let dx := px - e.x
    let dy := py - e.y
    let distance := Real.sqrt (dx * dx + dy * dy)
    if e.type = EType.melee ∨ e.type = EType.fast then
      if distance < 40 then ⟨e1, [], e.damage⟩ else ⟨e1, [], 0⟩
    else
      if e.type = EType.boss then
        ⟨e1, [createEnemyProjectile e px py 0,
              createEnemyProjectile e px py (-0.3),
              createEnemyProjectile e px py 0.3], 0⟩
      else
        ⟨e1, [createEnemyProjectile e px py 0], 0⟩

/-- Update the first list entry satisfying the predicate (the source
mutates a single enemy object in place; ids are unique, so the first
id match is that object). -/
def updFirst {α : Type} (p : α → Bool) (f : α → α) : List α → List α
  | [] => []
  | a :: as => if p a then f a :: as else a :: updFirst p f as

/-- Remove the first list entry satisfying the predicate
(`findIndex` + `splice(index, 1)` in `killEnemy`). -/
def removeFirst {α : Type} (p : α → Bool) : List α → List α
  | [] => []
  | a :: as => if p a then as else a :: removeFirst p as

/-- Source `damageEnemy(enemy, damage)` addressed by enemy id: subtract the
damage from that enemy's health, and when it drops to 0 or below run
`killEnemy` (remove it from the live collection; the XP grant and the
kill-counter callback are returned alongside by `damageEnemyGains`). -/
noncomputable def damageEnemy (es : List Enemy) (eid : ℕ) (damage : ℝ) : List Enemy :=
  match es.find? (fun e => e.id = eid) with
  | none => es
  | some e =>
    if e.health - damage ≤ 0 then
      removeFirst (fun x => x.id = eid) es
    else
      updFirst (fun x => x.id = eid) (fun x => { x with health := x.health - damage }) es

/-- The XP granted by a `damageEnemy` call (via `killEnemy` →
`gainXP(enemy.xpValue)`); 0 when the enemy survives or is absent. -/
noncomputable def damageEnemyGains (es : List Enemy) (eid : ℕ) (damage : ℝ) : ℝ :=
  match es.find? (fun e => e.id = eid) with
  | none => 0
  | some e => if e.health - damage ≤ 0 then e.xpValue else 0

/-! ### Level generation and floor progression (`game-engine.service.ts`) -/

/-- The initial all-wall grid built at the top of `generateLevel()`. -/
def initGrid : Grid :=
  (List.range levelHeight).map (fun y =>
    (List.range levelWidth).map (fun x => ⟨x, y, TileType.wall, false⟩))

/-- The nested carving loops of one room in `generateRooms`: every cell of
the `rw × rh` rectangle anchored at `(rx, ry)` becomes a walkable floor
tile. -/
def carveRoom (g : Grid) (rx ry : ℤ) (rw rh : ℕ) : Grid :=
  (List.range rh).foldl (fun acc dy =>
    (List.range rw).foldl (fun acc2 dx =>
      setFloorAt acc2 (rx + dx) (ry + dy)) acc) g

/-- The body of one iteration of the `generateRooms` loop: four draws for
width, height and position, then the carve. -/
noncomputable def generateOneRoom (r : ℕ → ℝ) (st : Grid × ℕ) : Grid × ℕ :=
  let k := st.2
  let roomWidth : ℤ := ⌊r k * 8⌋ + 4
  let roomHeight : ℤ := ⌊r (k + 1) * 8⌋ + 4
  let roomX : ℤ := ⌊r (k + 2) * ((levelWidth : ℝ) - (roomWidth : ℝ) - 2)⌋ + 1
  let roomY : ℤ := ⌊r (k + 3) * ((levelHeight : ℝ) - (roomHeight : ℝ) - 2)⌋ + 1
  (carveRoom st.1 roomX roomY roomWidth.toNat roomHeight.toNat, k + 4)

/-- Source `generateRooms()`: `⌊rand·8⌋ + 6` rooms, carved sequentially. -/
noncomputable def generateRooms (r : ℕ → ℝ) (g : Grid) (k : ℕ) : Grid × ℕ :=
  let roomCount := (⌊r k * 8⌋).toNat + 6
  Nat.rec (motive := fun _ => Grid × ℕ) (g, k + 1)
    (fun _ st => generateOneRoom r st) roomCount

/-- Source `generateCorridors()`: 50 single-cell carves at random interior
coordinates (border cells are skipped). -/
noncomputable def generateCorridors (r : ℕ → ℝ) (g : Grid) (k : ℕ) : Grid × ℕ :=
  Nat.rec (motive := fun _ => Grid × ℕ) (g, k)
    (fun _ st =>
      let x : ℤ := ⌊r st.2 * (levelWidth : ℝ)⌋
      let y : ℤ := ⌊r (st.2 + 1) * (levelHeight : ℝ)⌋
      let g2 := if 0 < x ∧ x < (levelWidth : ℤ) - 1 ∧ 0 < y ∧ y < (levelHeight : ℤ) - 1
        then setFloorAt st.1 x y else st.1
      (g2, st.2 + 2)) 50

/-- The row-major walkable-cell collection loop at the top of
`placeEntranceAndExit()`: `for y … for x … if walkable push {x, y}`. -/
def collectWalkable (g : Grid) : List (ℕ × ℕ) :=
  ((List.range levelHeight).map (fun y =>
    (List.range levelWidth).filterMap (fun x =>
      if (tileAt g x y).walkable then some (x, y) else none))).flatten

/-- Source `placeEntranceAndExit()`: when at least two walkable cells exist, the
first collected cell's type becomes `entrance`, the last's becomes
`exit`, and the player is positioned at the entrance cell's centre;
otherwise nothing changes. -/
noncomputable def placeEntranceAndExit (g : Grid) (p : Player) : Grid × Player :=
  let floorTiles := collectWalkable g
  if 2 ≤ floorTiles.length then
    let entrance := nthD floorTiles 0 (0, 0)
    let exitCell := floorTiles.getLastD (0, 0)
    let g1 := setTypeAt g entrance.1 entrance.2 TileType.entrance
    let g2 := setTypeAt g1 exitCell.1 exitCell.2 TileType.exit
    (g2, setPosition p ((entrance.1 : ℝ) * tileSize + tileSize / 2)
                       ((entrance.2 : ℝ) * tileSize + tileSize / 2))
  else (g, p)

/-- Source `generateLevel()`: all-wall initialization, rooms, corridors, then
entrance/exit placement (which may reposition the player). -/
noncomputable def generateLevel (r : ℕ → ℝ) (k : ℕ) (p : Player) : Grid × Player × ℕ :=
  let s1 := generateRooms r initGrid k
  let s2 := generateCorridors r s1.1 s1.2
  let s3 := placeEntranceAndExit s2.1 p
  (s3.1, s3.2, s2.2)

/-- The engine state touched by the floor-progression path: floor
counter, kill counter, tile grid, and the two collaborating services'
states. -/
structure GState : Type where
  currentFloor : ℕ
  enemiesKilled : ℕ
  tiles : Grid
  player : Player
  eState : EState

/-- Source `nextFloor()`: bump the floor counter, regenerate the level, respawn
the floor's enemy roster, and additionally spawn a boss when the new
floor number is a multiple of 5. -/
noncomputable def nextFloor (s : GState) (r : ℕ → ℝ) (k : ℕ) (now : ℝ) : GState :=
  let f1 := s.currentFloor + 1
  let gen := generateLevel r k s.player
  let sp := spawnEnemiesForFloor (fun x y => isWalkable gen.1 x y) r now f1 s.eState gen.2.2
  let es2 := if f1 % 5 = 0 then (spawnBoss r now f1 sp.1 sp.2).1 else sp.1
  { currentFloor := f1, enemiesKilled := s.enemiesKilled,
    tiles := gen.1, player := gen.2.1, eState := es2 }

/-- Source `checkLevelProgression()`: advance to the next floor exactly when the
player's occupied tile is in bounds, has type `exit`, and
`getEnemyCount()` is 0. -/
noncomputable def checkLevelProgression (s : GState) (r : ℕ → ℝ) (k : ℕ) (now : ℝ) : GState :=
  let tileX : ℤ := ⌊s.player.x / tileSize⌋
  let tileY : ℤ := ⌊s.player.y / tileSize⌋
  if 0 ≤ tileX ∧ tileX < (levelWidth : ℤ) ∧ 0 ≤ tileY ∧ tileY < (levelHeight : ℤ) then
    if (tileAt s.tiles tileX.toNat tileY.toNat).type = TileType.exit ∧
        s.eState.enemies.length = 0 then
      nextFloor s r k now
    else s
  else s

/-! ### Helper lemmas -/

theorem nthD_ge_length {α : Type} (l : List α) (n : ℕ) (d : α)
    (h : l.length ≤ n) : nthD l n d = d := by
  induction l generalizing n with
  | nil => exact nthD_nil n d
  | cons a as ih =>
    cases n with
    | zero => simp at h
    | succ m => simpa [nthD_cons_succ] using ih m (by simpa using h)

theorem getLastD_mem {α : Type} (l : List α) (d : α) (h : l ≠ []) :
    l.getLastD d ∈ l := by
  induction l generalizing d with
  | nil => exact absurd rfl h
  | cons a as ih =>
    cases as with
    | nil => simp [List.getLastD]
    | cons b bs =>
      have hmem := ih a (by simp)
      simp only [List.getLastD_cons] at hmem ⊢
      exact List.mem_cons_of_mem _ hmem

theorem pairwise_first_last {α : Type} (l : List α) (R : α → α → Prop)
    (hp : l.Pairwise R) (hlen : 2 ≤ l.length) (d : α) :
    R (nthD l 0 d) (l.getLastD d) := by
  cases l with
  | nil => simp at hlen
  | cons a as =>
    cases as with
    | nil => simp at hlen
    | cons b bs =>
      have hmem : (b :: bs).getLastD a ∈ b :: bs := getLastD_mem (b :: bs) a (by simp)
      have hrel := (List.pairwise_cons.mp hp).1
      simpa [nthD_cons_zero, List.getLastD_cons] using hrel _ hmem

theorem removeFirst_subset {α : Type} (p : α → Bool) (l : List α) :
    ∀ x ∈ removeFirst p l, x ∈ l := by
  induction l with
  | nil => simp [removeFirst]
  | cons a as ih =>
    intro x hx
    by_cases hpa : p a = true
    · simp only [removeFirst, if_pos hpa] at hx
      exact List.mem_cons_of_mem _ hx
    · simp only [removeFirst, if_neg hpa] at hx
      rcases List.mem_cons.mp hx with hx | hx
      · simp [hx]
      · exact List.mem_cons_of_mem _ (ih x hx)

theorem mem_updFirst_find {α : Type} (p : α → Bool) (f : α → α) (l : List α)
    (e : α) (hfind : l.find? p = some e) :
    ∀ x ∈ updFirst p f l, x ∈ l ∨ x = f e := by
  induction l with
  | nil => simp [updFirst]
  | cons a as ih =>
    intro x hx
    by_cases hpa : p a = true
    · rw [List.find?_cons_of_pos _ hpa] at hfind
      injection hfind with he
      subst he
      simp only [updFirst, if_pos hpa] at hx
      rcases List.mem_cons.mp hx with hx | hx
      · exact Or.inr hx
      · exact Or.inl (List.mem_cons_of_mem _ hx)
    · rw [List.find?_cons_of_neg _ (by simpa using hpa)] at hfind
      simp only [updFirst, if_neg hpa] at hx
      rcases List.mem_cons.mp hx with hx | hx
      · exact Or.inl (by simp [hx])
      · rcases ih hfind x hx with h | h
        · exact Or.inl (List.mem_cons_of_mem _ h)
        · exact Or.inr h

theorem nthD_enemyTypes (n : ℕ) :
    nthD enemyTypes n EType.melee = EType.melee ∨
    nthD enemyTypes n EType.melee = EType.ranged ∨
    nthD enemyTypes n EType.melee = EType.fast := by
  match n with
  | 0 => exact Or.inl rfl
  | 1 => exact Or.inr (Or.inl rfl)
  | 2 => exact Or.inr (Or.inr rfl)
  | m + 3 =>
    left
    show nthD ([] : List EType) m EType.melee = EType.melee
    exact nthD_nil m EType.melee

/-! ### Claim theorems -/

/-- Claim C9: `resetPlayer()` is idempotent — calling it twice yields
exactly the state of calling it once — and the resulting state is the
fixed default assignment: position (400, 300), health 100 of 100, level
1, xp 0, damage 10, speed 150, attackSpeed 1, regeneration disabled, and
an empty projectile list. -/
theorem resetPlayer_idempotent_default (s : PState) :
    resetPlayer (resetPlayer s) = resetPlayer s ∧
    (resetPlayer s).player.x = 400 ∧
    (resetPlayer s).player.y = 300 ∧
    (resetPlayer s).player.health = 100 ∧
    (resetPlayer s).player.maxHealth = 100 ∧
    (resetPlayer s).player.level = 1 ∧
    (resetPlayer s).player.xp = 0 ∧
    (resetPlayer s).player.damage = 10 ∧
    (resetPlayer s).player.speed = 150 ∧
    (resetPlayer s).player.attackSpeed = 1 ∧
    (resetPlayer s).player.hasRegeneration = false ∧
    (resetPlayer s).projectiles = [] :=
  ⟨rfl, rfl, rfl, rfl, rfl, rfl, rfl, rfl, rfl, rfl, rfl, rfl⟩

/-- Claim C2: `gainXP(amount)` accumulates XP; when the accumulated total
reaches `level * 100` exactly one level-up fires in that call — the level
becomes `level + 1` and the XP is zeroed — and no second level-up chains
within the call, however large the amount; below the threshold the level
is unchanged and the XP is exactly the accumulated total. -/
theorem gainXP_single_step (p : Player) (amount : ℝ) :
    (p.xp + amount ≥ (p.level : ℝ) * 100 →
      (gainXP p amount).level = p.level + 1 ∧ (gainXP p amount).xp = 0) ∧
    (p.xp + amount < (p.level : ℝ) * 100 →
      (gainXP p amount).level = p.level ∧ (gainXP p amount).xp = p.xp + amount) := by
  unfold gainXP getXPRequirement levelUp
  constructor
  · intro h
    rw [if_pos (by exact h)]
    exact ⟨rfl, rfl⟩
  · intro h
    rw [if_neg (by exact not_le.mpr h)]
    exact ⟨rfl, rfl⟩

/-- Witness for C2 at a concrete input: the default player (level 1,
xp 0) gaining 250 XP crosses the 100-XP threshold and ends at level 2
with xp 0 — in particular no chained second level-up happens even though
250 also exceeds the next requirement of 200. -/
theorem gainXP_single_step_witness :
    defaultPlayer.xp + 250 ≥ (defaultPlayer.level : ℝ) * 100 ∧
    (gainXP defaultPlayer 250).level = 2 ∧ (gainXP defaultPlayer 250).xp = 0 := by
  have h : defaultPlayer.xp + 250 ≥ (defaultPlayer.level : ℝ) * 100 := by
    norm_num [defaultPlayer]
  obtain ⟨h1, h2⟩ := (gainXP_single_step defaultPlayer 250).1 h
  exact ⟨h, h1, h2⟩

/-- Claim C5: an enemy created on floor `f` has
`health = maxHealth = base_health(type) * (1 + (f-1)*0.3)` and
`damage = base_damage(type) * (1 + (f-1)*0.2)` with bases melee 30/15,
ranged 20/12, fast 15/8, boss 200/25, while speed, attackCooldown and
radius stay at the unscaled tabulated values melee 80/1500/16,
ranged 60/2000/14, fast 120/800/12, boss 40/1000/32. -/
theorem createEnemy_stat_scaling (x y : ℝ) (f : ℕ) (eid : ℕ) (pd now : ℝ)
    (_hf : 1 ≤ f) :
    (∀ t, (createEnemy t x y f eid pd now).health =
          (createEnemy t x y f eid pd now).maxHealth) ∧
    (createEnemy EType.melee x y f eid pd now).health = 30 * (1 + ((f : ℝ) - 1) * 0.3) ∧
    (createEnemy EType.melee x y f eid pd now).damage = 15 * (1 + ((f : ℝ) - 1) * 0.2) ∧
    (createEnemy EType.melee x y f eid pd now).speed = 80 ∧
    (createEnemy EType.melee x y f eid pd now).attackCooldown = 1500 ∧
    (createEnemy EType.melee x y f eid pd now).radius = 16 ∧
    (createEnemy EType.ranged x y f eid pd now).health = 20 * (1 + ((f : ℝ) - 1) * 0.3) ∧
    (createEnemy EType.ranged x y f eid pd now).damage = 12 * (1 + ((f : ℝ) - 1) * 0.2) ∧
    (createEnemy EType.ranged x y f eid pd now).speed = 60 ∧
    (createEnemy EType.ranged x y f eid pd now).attackCooldown = 2000 ∧
    (createEnemy EType.ranged x y f eid pd now).radius = 14 ∧
    (createEnemy EType.fast x y f eid pd now).health = 15 * (1 + ((f : ℝ) - 1) * 0.3) ∧
    (createEnemy EType.fast x y f eid pd now).damage = 8 * (1 + ((f : ℝ) - 1) * 0.2) ∧
    (createEnemy EType.fast x y f eid pd now).speed = 120 ∧
    (createEnemy EType.fast x y f eid pd now).attackCooldown = 800 ∧
    (createEnemy EType.fast x y f eid pd now).radius = 12 ∧
    (createEnemy EType.boss x y f eid pd now).health = 200 * (1 + ((f : ℝ) - 1) * 0.3) ∧
    (createEnemy EType.boss x y f eid pd now).damage = 25 * (1 + ((f : ℝ) - 1) * 0.2) ∧
    (createEnemy EType.boss x y f eid pd now).speed = 40 ∧
    (createEnemy EType.boss x y f eid pd now).attackCooldown = 1000 ∧
    (createEnemy EType.boss x y f eid pd now).radius = 32 := by
  refine ⟨fun t => ?_, ?_, ?_, ?_, ?_, ?_, ?_, ?_, ?_, ?_, ?_, ?_, ?_, ?_, ?_,
    ?_, ?_, ?_, ?_, ?_, ?_⟩ <;>
    first
      | (cases t <;> rfl)
      | rfl

/-- Witness for C5 at a concrete input: floor 3 satisfies `1 ≤ f`, and
for example the melee enemy's scaled health there is
`30 * (1 + 2*0.3) = 48`. -/
theorem createEnemy_stat_scaling_witness :
    1 ≤ 3 ∧ (createEnemy EType.melee 0 0 3 0 0 0).health = 48 := by
  have h := createEnemy_stat_scaling 0 0 3 0 0 0 (by norm_num)
  refine ⟨by norm_num, ?_⟩
  rw [h.2.1]
  norm_num

/-- The player-state mutations relevant to the health invariant: a
`takeDamage` call, a regeneration tick, and the five upgrade
operations reachable from the level-up screen. -/
inductive PlayerOp : Type where
  | dealDamage (amount : ℝ) : PlayerOp
  | regenTick (now : ℝ) : PlayerOp
  | upMaxHealth (amount : ℝ) : PlayerOp
  | upDamage (amount : ℝ) : PlayerOp
  | upSpeed (multiplier : ℝ) : PlayerOp
  | upAttackSpeed (multiplier : ℝ) : PlayerOp
  | enableRegen (now : ℝ) : PlayerOp

/-- Dispatch one mutation to the corresponding `PlayerService` method. -/
noncomputable def applyOp (p : Player) : PlayerOp → Player
  | PlayerOp.dealDamage a => takeDamage p a
  | PlayerOp.regenTick now => handleRegeneration p now
  | PlayerOp.upMaxHealth a => upgradeMaxHealth p a
  | PlayerOp.upDamage a => upgradeDamage p a
  | PlayerOp.upSpeed m => upgradeSpeed p m
  | PlayerOp.upAttackSpeed m => upgradeAttackSpeed p m
  | PlayerOp.enableRegen now => enableRegeneration p now

/-- A sequence of player-state mutations, applied in order. -/
noncomputable def applyOps (p : Player) (ops : List PlayerOp) : Player :=
  ops.foldl applyOp p

/-- The amounts actually passed by the game: damage amounts are
non-negative (enemy damage stats), and the max-health upgrade amount is
non-negative (+20 in the catalog). -/
def ValidOp : PlayerOp → Prop
  | PlayerOp.dealDamage a => 0 ≤ a
  | PlayerOp.upMaxHealth a => 0 ≤ a
  | _ => True

/-- The health invariant for the player: `0 ≤ health ≤ maxHealth`. -/
def HealthInv (p : Player) : Prop := 0 ≤ p.health ∧ p.health ≤ p.maxHealth

/-- The health invariant for one enemy: `0 ≤ health ≤ maxHealth`. -/
def EnemyInv (e : Enemy) : Prop := 0 ≤ e.health ∧ e.health ≤ e.maxHealth

theorem applyOp_preserves (p : Player) (op : PlayerOp) (hv : ValidOp op)
    (hp : HealthInv p) : HealthInv (applyOp p op) := by
  obtain ⟨h0, hm⟩ := hp
  have hmax : (0 : ℝ) ≤ p.maxHealth := le_trans h0 hm
  cases op with
  | dealDamage a =>
    have hva : (0 : ℝ) ≤ a := hv
    exact ⟨le_max_left 0 _,
           max_le hmax (show p.health - a ≤ p.maxHealth by linarith)⟩
  | regenTick now =>
    show HealthInv (handleRegeneration p now)
    unfold handleRegeneration
    by_cases h1 : p.hasRegeneration = true ∧ p.health < p.maxHealth
    · rw [if_pos h1]
      by_cases h2 : now - p.lastRegenTime > 1000
      · rw [if_pos h2]
        exact ⟨le_min hmax (by linarith), min_le_left _ _⟩
      · rw [if_neg h2]; exact ⟨h0, hm⟩
    · rw [if_neg h1]; exact ⟨h0, hm⟩
  | upMaxHealth a =>
    have hva : (0 : ℝ) ≤ a := hv
    exact ⟨by simpa [applyOp, upgradeMaxHealth] using by linarith,
           by simpa [applyOp, upgradeMaxHealth] using by linarith⟩
  | upDamage a => exact ⟨h0, hm⟩
  | upSpeed m => exact ⟨h0, hm⟩
  | upAttackSpeed m => exact ⟨h0, hm⟩
  | enableRegen now => exact ⟨h0, hm⟩

/-- Claim C3: health is clamped to `[0, maxHealth]` at every observable
mutation — after any sequence of `takeDamage` (non-negative amount),
regeneration ticks and upgrade calls the player's health lies in
`[0, maxHealth]`, and after any `damageEnemy` (non-negative damage)
every enemy still in the live collection has health in
`[0, maxHealth]` (an enemy whose health would drop to 0 or below is
removed by `killEnemy` within the same call). -/
theorem health_clamped :
    (∀ (ops : List PlayerOp) (p : Player), HealthInv p →
      (∀ op ∈ ops, ValidOp op) → HealthInv (applyOps p ops)) ∧
    (∀ (es : List Enemy) (eid : ℕ) (d : ℝ), 0 ≤ d →
      (∀ e ∈ es, EnemyInv e) → ∀ e2 ∈ damageEnemy es eid d, EnemyInv e2) := by
  constructor
  · intro ops
    induction ops with
    | nil => intro p hp _; exact hp
    | cons op rest ih =>
      intro p hp hv
      have h1 : HealthInv (applyOp p op) :=
        applyOp_preserves p op (hv op (by simp)) hp
      have := ih (applyOp p op) h1 (fun o ho => hv o (List.mem_cons_of_mem _ ho))
      simpa [applyOps, List.foldl_cons] using this
  · intro es eid d hd hes e2 he2
    cases hfind : es.find? (fun e => e.id = eid) with
    | none =>
      simp only [damageEnemy, hfind] at he2
      exact hes e2 he2
    | some e =>
      simp only [damageEnemy, hfind] at he2
      by_cases hk : e.health - d ≤ 0
      · rw [if_pos hk] at he2
        exact hes e2 (removeFirst_subset _ es e2 he2)
      · rw [if_neg hk] at he2
        rcases mem_updFirst_find _ _ es e hfind e2 he2 with h | h
        · exact hes e2 h
        · have hmem : e ∈ es := List.mem_of_find?_eq_some hfind
          obtain ⟨he0, hem⟩ := hes e hmem
          rw [h]
          exact ⟨by simpa using le_of_not_le (by simpa using hk),
                 by simp only []; linarith⟩

/-- Witness for C3 at concrete inputs: the default player surviving a
30-damage hit, a regeneration tick and a +20 max-health upgrade keeps
`0 ≤ health ≤ maxHealth`; and damaging a freshly created floor-1 melee
enemy (health 30) by 10 leaves every live enemy's health in range. -/
theorem health_clamped_witness :
    HealthInv defaultPlayer ∧
    (∀ op ∈ [PlayerOp.dealDamage 30, PlayerOp.regenTick 5000,
             PlayerOp.upMaxHealth 20], ValidOp op) ∧
    HealthInv (applyOps defaultPlayer
      [PlayerOp.dealDamage 30, PlayerOp.regenTick 5000, PlayerOp.upMaxHealth 20]) ∧
    (0 : ℝ) ≤ 10 ∧
    (∀ e ∈ [createEnemy EType.melee 100 100 1 0 0 0], EnemyInv e) ∧
    (∀ e2 ∈ damageEnemy [createEnemy EType.melee 100 100 1 0 0 0] 0 10, EnemyInv e2) := by
  have hp : HealthInv defaultPlayer := by
    constructor <;> norm_num [HealthInv, defaultPlayer]
  have hv : ∀ op ∈ [PlayerOp.dealDamage 30, PlayerOp.regenTick 5000,
      PlayerOp.upMaxHealth 20], ValidOp op := by
    intro op hop
    rcases List.mem_cons.mp hop with h | hop
    · rw [h]; norm_num [ValidOp]
    rcases List.mem_cons.mp hop with h | hop
    · rw [h]; trivial
    rcases List.mem_cons.mp hop with h | hop
    · rw [h]; norm_num [ValidOp]
    · simp at hop
  have hes : ∀ e ∈ [createEnemy EType.melee 100 100 1 0 0 0], EnemyInv e := by
    intro e he
    rcases List.mem_cons.mp he with h | he
    · rw [h]
      constructor <;> norm_num [EnemyInv, createEnemy, enemyBaseStats]
    · simp at he
  have hd : (0 : ℝ) ≤ 10 := by norm_num
  exact ⟨hp, hv, health_clamped.1 _ defaultPlayer hp hv, hd, hes,
         health_clamped.2 _ 0 10 hd hes⟩

/-- Claim C6: while the attack input is held the player fires at most
once per `1000 / attackSpeed` ms cooldown window; each fire appends
exactly one projectile at the player's position, with velocity of
magnitude 300 directed along the facing angle, damage equal to the
player's damage stat, and initial lifetime 2000 ms. -/
theorem handleAttack_cooldown_fire (s : PState) (b : Bool) (now : ℝ) :
    (b = true → now - s.player.lastAttackTime > 1000 / s.player.attackSpeed →
      handleAttack s b now =
        { player := { s.player with lastAttackTime := now },
          projectiles := s.projectiles ++ [attackProjectile s.player] } ∧
      (attackProjectile s.player).x = s.player.x ∧
      (attackProjectile s.player).y = s.player.y ∧
      (attackProjectile s.player).vx = Real.cos s.player.facing * 300 ∧
      (attackProjectile s.player).vy = Real.sin s.player.facing * 300 ∧
      (attackProjectile s.player).vx ^ 2 + (attackProjectile s.player).vy ^ 2 = 300 ^ 2 ∧
      (attackProjectile s.player).damage = s.player.damage ∧
      (attackProjectile s.player).lifetime = 2000) ∧
    (¬(b = true ∧ now - s.player.lastAttackTime > 1000 / s.player.attackSpeed) →
      handleAttack s b now = s) ∧
    (∀ (b2 : Bool) (now2 : ℝ), b = true →
      now - s.player.lastAttackTime > 1000 / s.player.attackSpeed →
      now2 - now ≤ 1000 / s.player.attackSpeed →
      handleAttack (handleAttack s b now) b2 now2 = handleAttack s b now) := by
  have hfire : ∀ hb : b = true,
      now - s.player.lastAttackTime > 1000 / s.player.attackSpeed →
      handleAttack s b now =
        { player := { s.player with lastAttackTime := now },
          projectiles := s.projectiles ++ [attackProjectile s.player] } := by
    intro hb hcd
    subst hb
    unfold handleAttack
    rw [if_pos rfl, if_pos hcd]
  refine ⟨?_, ?_, ?_⟩
  · intro hb hcd
    refine ⟨hfire hb hcd, rfl, rfl, rfl, rfl, ?_, rfl, rfl⟩
    show (Real.cos s.player.facing * 300) ^ 2 + (Real.sin s.player.facing * 300) ^ 2 = 300 ^ 2
    nlinarith [Real.sin_sq_add_cos_sq s.player.facing]
  · intro h
    unfold handleAttack
    cases b with
    | false => rw [if_neg (by simp)]
    | true =>
      rw [if_pos rfl]
      have hcd : ¬now - s.player.lastAttackTime > 1000 / s.player.attackSpeed :=
        fun hc => h ⟨rfl, hc⟩
      rw [if_neg hcd]
  · intro b2 now2 hb hcd h2
    rw [hfire hb hcd]
    unfold handleAttack
    cases b2 with
    | false => rw [if_neg (by simp)]
    | true =>
      rw [if_pos rfl, if_neg (by simpa using not_lt.mpr h2)]

/-- Witness for C6 at a concrete input: the default player (attackSpeed
1, lastAttackTime 0) with the attack input held at time 2000 ms is past
the 1000 ms cooldown, so the fire branch applies and, for instance, the
spawned projectile's lifetime is 2000. -/
theorem handleAttack_cooldown_fire_witness :
    (true = true ∧
      (2000 : ℝ) - defaultPlayer.lastAttackTime > 1000 / defaultPlayer.attackSpeed) ∧
    (attackProjectile defaultPlayer).lifetime = 2000 := by
  have hcd : (2000 : ℝ) - defaultPlayer.lastAttackTime > 1000 / defaultPlayer.attackSpeed := by
    norm_num [defaultPlayer]
  have h := (handleAttack_cooldown_fire ⟨defaultPlayer, []⟩ true 2000).1 rfl (by
    simpa [defaultPlayer] using hcd)
  exact ⟨⟨rfl, hcd⟩, h.2.2.2.2.2.2.2⟩

/-- Claim C7: an enemy whose attack resolves (attacking flag set,
cooldown elapsed) stamps its last-attack time; melee/fast deal their
damage only when the distance to the player is strictly below 40 and
spawn nothing; ranged spawn exactly one projectile aimed at the player;
boss spawns exactly three projectiles at angular offsets 0, −0.3 and
+0.3 radians off the direction to the player — and no further attack
resolves within the same cooldown window. -/
theorem updateEnemyAttack_per_type (e : Enemy) (px py now : ℝ)
    (hAtk : e.isAttacking = true)
    (hCd : e.attackCooldown ≤ now - e.lastAttackTime) :
    (updateEnemyAttack e px py now).enemy = { e with lastAttackTime := now } ∧
    (e.type = EType.melee ∨ e.type = EType.fast →
      (updateEnemyAttack e px py now).newProjectiles = [] ∧
      (updateEnemyAttack e px py now).playerDamage =
        (if Real.sqrt ((px - e.x) * (px - e.x) + (py - e.y) * (py - e.y)) < 40
         then e.damage else 0)) ∧
    (e.type = EType.ranged →
      (updateEnemyAttack e px py now).newProjectiles = [createEnemyProjectile e px py 0] ∧
      (updateEnemyAttack e px py now).playerDamage = 0) ∧
    (e.type = EType.boss →
      (updateEnemyAttack e px py now).newProjectiles.length = 3 ∧
      (updateEnemyAttack e px py now).newProjectiles =
        [createEnemyProjectile e px py 0,
         createEnemyProjectile e px py (-0.3),
         createEnemyProjectile e px py 0.3] ∧
      (updateEnemyAttack e px py now).playerDamage = 0) ∧
    (∀ o, (createEnemyProjectile e px py o).x = e.x ∧
      (createEnemyProjectile e px py o).y = e.y ∧
      (createEnemyProjectile e px py o).vx =
        Real.cos (matan2 (py - e.y) (px - e.x) + o) * 150 ∧
      (createEnemyProjectile e px py o).vy =
        Real.sin (matan2 (py - e.y) (px - e.x) + o) * 150 ∧
      (createEnemyProjectile e px py o).damage = e.damage) ∧
    (∀ now2, now2 - now < e.attackCooldown →
      updateEnemyAttack { e with lastAttackTime := now } px py now2 =
        ⟨{ e with lastAttackTime := now }, [], 0⟩) := by
  have hnotlt : ¬now - e.lastAttackTime < e.attackCooldown := not_lt.mpr hCd
  have hopen : updateEnemyAttack e px py now =
      (if e.type = EType.melee ∨ e.type = EType.fast then
        if Real.sqrt ((px - e.x) * (px - e.x) + (py - e.y) * (py - e.y)) < 40 then
          ⟨{ e with lastAttackTime := now }, [], e.damage⟩
        else ⟨{ e with lastAttackTime := now }, [], 0⟩
      else if e.type = EType.boss then
        ⟨{ e with lastAttackTime := now },
         [createEnemyProjectile e px py 0,
          createEnemyProjectile e px py (-0.3),
          createEnemyProjectile e px py 0.3], 0⟩
      else ⟨{ e with lastAttackTime := now }, [createEnemyProjectile e px py 0], 0⟩) := by
    unfold updateEnemyAttack
    rw [hAtk]
    rw [if_neg (by simp), if_neg hnotlt]
  refine ⟨?_, ?_, ?_, ?_, fun o => ⟨rfl, rfl, rfl, rfl, rfl⟩, ?_⟩
  · rw [hopen]
    by_cases h1 : e.type = EType.melee ∨ e.type = EType.fast
    · rw [if_pos h1]
      by_cases h2 : Real.sqrt ((px - e.x) * (px - e.x) + (py - e.y) * (py - e.y)) < 40
      · rw [if_pos h2]
      · rw [if_neg h2]
    · rw [if_neg h1]
      by_cases h3 : e.type = EType.boss
      · rw [if_pos h3]
      · rw [if_neg h3]
  · intro h1
    rw [hopen, if_pos h1]
    by_cases h2 : Real.sqrt ((px - e.x) * (px - e.x) + (py - e.y) * (py - e.y)) < 40
    · rw [if_pos h2, if_pos h2]; exact ⟨rfl, rfl⟩
    · rw [if_neg h2, if_neg h2]; exact ⟨rfl, rfl⟩
  · intro h1
    have hne : ¬(e.type = EType.melee ∨ e.type = EType.fast) := by
      rw [h1]; rintro (h | h) <;> exact EType.noConfusion h
    have hnb : ¬e.type = EType.boss := by rw [h1]; exact fun h => EType.noConfusion h
    rw [hopen, if_neg hne, if_neg hnb]
    exact ⟨rfl, rfl⟩
  · intro h1
    have hne : ¬(e.type = EType.melee ∨ e.type = EType.fast) := by
      rw [h1]; rintro (h | h) <;> exact EType.noConfusion h
    rw [hopen, if_neg hne, if_pos h1]
    exact ⟨rfl, rfl, rfl⟩
  · intro now2 h2
    unfold updateEnemyAttack
    rw [hAtk]
    rw [if_neg (by simp)]
    rw [if_pos (by simpa using h2)]

/-- Witness for C7 at a concrete input: a floor-5 boss with the attacking
flag set, lastAttackTime 0 and cooldown 1000 resolves its attack at time
1500, producing exactly 3 projectiles. -/
theorem updateEnemyAttack_per_type_witness :
    ({ createEnemy EType.boss 0 0 5 0 0 0 with isAttacking := true } : Enemy).isAttacking = true ∧
    ({ createEnemy EType.boss 0 0 5 0 0 0 with isAttacking := true } : Enemy).attackCooldown ≤
      (1500 : ℝ) - ({ createEnemy EType.boss 0 0 5 0 0 0 with isAttacking := true } : Enemy).lastAttackTime ∧
    (updateEnemyAttack { createEnemy EType.boss 0 0 5 0 0 0 with isAttacking := true }
      100 0 1500).newProjectiles.length = 3 := by
  have hCd : ({ createEnemy EType.boss 0 0 5 0 0 0 with isAttacking := true } : Enemy).attackCooldown ≤
      (1500 : ℝ) - ({ createEnemy EType.boss 0 0 5 0 0 0 with isAttacking := true } : Enemy).lastAttackTime := by
    norm_num [createEnemy, enemyBaseStats]
  have h := updateEnemyAttack_per_type
    { createEnemy EType.boss 0 0 5 0 0 0 with isAttacking := true } 100 0 1500 rfl hCd
  exact ⟨rfl, hCd, (h.2.2.2.1 rfl).1⟩

theorem spawnRandomEnemy_append (walk : ℝ → ℝ → Bool) (r : ℕ → ℝ) (now : ℝ)
    (floor : ℕ) (s : EState) (k : ℕ) :
    ∃ e : Enemy, (spawnRandomEnemy walk r now floor s k).1.enemies = s.enemies ++ [e] ∧
      (e.type = EType.melee ∨ e.type = EType.ranged ∨ e.type = EType.fast) := by
  refine ⟨_, rfl, ?_⟩
  show (createEnemy (nthD enemyTypes (⌊r k * 3⌋).toNat EType.melee) _ _ floor _ _ now).type =
      EType.melee ∨ _ ∨ _
  exact nthD_enemyTypes (⌊r k * 3⌋).toNat

theorem spawnLoop_spec (walk : ℝ → ℝ → Bool) (r : ℕ → ℝ) (now : ℝ) (floor : ℕ)
    (n : ℕ) (st : EState × ℕ) :
    (spawnLoop walk r now floor n st).1.enemies.length = st.1.enemies.length + n ∧
    ∀ e ∈ (spawnLoop walk r now floor n st).1.enemies,
      e ∈ st.1.enemies ∨
      (e.type = EType.melee ∨ e.type = EType.ranged ∨ e.type = EType.fast) := by
  induction n generalizing st with
  | zero => exact ⟨rfl, fun e he => Or.inl he⟩
  | succ m ih =>
    obtain ⟨e1, happ, htype⟩ :=
      spawnRandomEnemy_append walk r now floor st.1 st.2
    have hstep := ih (spawnRandomEnemy walk r now floor st.1 st.2)
    constructor
    · rw [show spawnLoop walk r now floor (m + 1) st =
        spawnLoop walk r now floor m (spawnRandomEnemy walk r now floor st.1 st.2) from rfl]
      rw [hstep.1, happ]
      simp only [List.length_append, List.length_cons, List.length_nil]
      omega
    · intro e he
      rw [show spawnLoop walk r now floor (m + 1) st =
        spawnLoop walk r now floor m (spawnRandomEnemy walk r now floor st.1 st.2) from rfl] at he
      rcases hstep.2 e he with hmem | ht
      · rw [happ] at hmem
        rcases List.mem_append.mp hmem with h | h
        · exact Or.inl h
        · simp only [List.mem_singleton] at h
          subst h
          exact Or.inr htype
      · exact Or.inr ht

/-- Claim C4: for every floor `f ≥ 1`, `spawnEnemiesForFloor(f)` replaces
the enemy collection with exactly `min(3 + ⌊f/2⌋, 15)` enemies, and each
spawned enemy's type is melee, ranged or fast — the boss type never
appears among normal per-floor spawns. -/
theorem spawnEnemiesForFloor_count_types (walk : ℝ → ℝ → Bool) (r : ℕ → ℝ)
    (now : ℝ) (floor : ℕ) (s : EState) (k : ℕ) (_hf : 1 ≤ floor) :
    (spawnEnemiesForFloor walk r now floor s k).1.enemies.length =
      min (3 + floor / 2) 15 ∧
    ∀ e ∈ (spawnEnemiesForFloor walk r now floor s k).1.enemies,
      e.type = EType.melee ∨ e.type = EType.ranged ∨ e.type = EType.fast := by
  have h := spawnLoop_spec walk r now floor (min (3 + floor / 2) 15)
    ({ s with enemies := [], enemyProjectiles := [] }, k)
  refine ⟨?_, ?_⟩
  · show (spawnLoop walk r now floor (min (3 + floor / 2) 15)
      ({ s with enemies := [], enemyProjectiles := [] }, k)).1.enemies.length = _
    rw [h.1]
    simp
  · intro e he
    rcases h.2 e he with hmem | ht
    · simp at hmem
    · exact ht

/-- Witness for C4 at a concrete input: floor 1 satisfies `1 ≤ f`, and
the spawn pass there produces exactly `min(3 + 0, 15) = 3` enemies. -/
theorem spawnEnemiesForFloor_count_types_witness :
    1 ≤ 1 ∧
    (spawnEnemiesForFloor (fun _ _ => true) (fun _ => 0) 0 1 ⟨[], [], 0⟩ 0).1.enemies.length = 3 := by
  have h := spawnEnemiesForFloor_count_types (fun _ _ => true) (fun _ => 0) 0 1
    ⟨[], [], 0⟩ 0 (by norm_num)
  refine ⟨by norm_num, ?_⟩
  rw [h.1]
  decide

/-- Claim C10: `isWalkable(x, y)` is total — for every real coordinate
pair it returns `false` whenever the derived tile index `⌊x/32⌋` or
`⌊y/32⌋` falls outside the 50×50 grid (negative coordinates included),
and inside bounds the indices it uses are within the tile array (row
index below the number of rows, column index below that row's length)
and the result is exactly the stored tile's `walkable` flag. -/
theorem isWalkable_total_bounds (g : Grid) (x y : ℝ) (hg : GridDims g) :
    ((⌊x / tileSize⌋ < 0 ∨ (levelWidth : ℤ) ≤ ⌊x / tileSize⌋ ∨
      ⌊y / tileSize⌋ < 0 ∨ (levelHeight : ℤ) ≤ ⌊y / tileSize⌋) →
      isWalkable g x y = false) ∧
    (0 ≤ ⌊x / tileSize⌋ → ⌊x / tileSize⌋ < (levelWidth : ℤ) →
     0 ≤ ⌊y / tileSize⌋ → ⌊y / tileSize⌋ < (levelHeight : ℤ) →
      (⌊y / tileSize⌋).toNat < g.length ∧
      (⌊x / tileSize⌋).toNat < (nthD g (⌊y / tileSize⌋).toNat []).length ∧
      isWalkable g x y =
        (tileAt g (⌊x / tileSize⌋).toNat (⌊y / tileSize⌋).toNat).walkable) := by
  constructor
  · intro h
    unfold isWalkable
    rw [if_pos h]
  · intro h1 h2 h3 h4
    have hrow : (⌊y / tileSize⌋).toNat < g.length := by
      rw [hg.1]; unfold levelHeight at h4 ⊢; omega
    have hcol : (⌊x / tileSize⌋).toNat < (nthD g (⌊y / tileSize⌋).toNat []).length := by
      have hmem : nthD g (⌊y / tileSize⌋).toNat [] ∈ g := nthD_mem g _ [] hrow
      rw [hg.2 _ hmem]; unfold levelWidth at h2 ⊢; omega
    refine ⟨hrow, hcol, ?_⟩
    unfold isWalkable
    rw [if_neg (by push_neg; exact ⟨h1, h2, h3, h4⟩)]

theorem initGrid_dims : GridDims initGrid := by
  constructor
  · simp [initGrid, levelHeight]
  · intro row hrow
    simp only [initGrid, List.mem_map] at hrow
    obtain ⟨yy, _, rfl⟩ := hrow
    simp [levelWidth]

/-- Witness for C10 at a concrete input: the all-wall generated grid has
the required 50×50 shape, and the query at `x = -5` (tile index −1,
out of bounds) returns `false`. -/
theorem isWalkable_total_bounds_witness :
    GridDims initGrid ∧ isWalkable initGrid (-5) 7 = false := by
  refine ⟨initGrid_dims, ?_⟩
  apply (isWalkable_total_bounds initGrid (-5) 7 initGrid_dims).1
  left
  apply Int.floor_lt.mpr
  norm_num [tileSize]

/-- Number of boss-typed enemies in a collection. -/
def bossCount (es : List Enemy) : ℕ :=
  es.countP (fun e => e.type = EType.boss)

/-- The floor-advance condition checked by `checkLevelProgression()`: the
player's occupied tile index is inside the 50×50 grid, that tile has type
`exit`, and the live enemy count is 0. -/
noncomputable def AdvanceCond (s : GState) : Prop :=
  (0 ≤ ⌊s.player.x / tileSize⌋ ∧ ⌊s.player.x / tileSize⌋ < (levelWidth : ℤ) ∧
   0 ≤ ⌊s.player.y / tileSize⌋ ∧ ⌊s.player.y / tileSize⌋ < (levelHeight : ℤ)) ∧
  (tileAt s.tiles (⌊s.player.x / tileSize⌋).toNat (⌊s.player.y / tileSize⌋).toNat).type =
    TileType.exit ∧
  s.eState.enemies.length = 0

/-- Claim C1: in a `PLAYING` frame the floor advances exactly when the
player's occupied tile is the exit and the live enemy count is 0 — never
while any enemy is alive; on advance the floor counter increments by 1,
the level is regenerated, the floor's enemy roster is respawned
(`min(3 + ⌊f/2⌋, 15)` non-boss enemies), and exactly when the new floor
number is a multiple of 5 one additional boss enemy is spawned. -/
theorem checkLevelProgression_advance (s : GState) (r : ℕ → ℝ) (k : ℕ) (now : ℝ) :
    (AdvanceCond s →
      checkLevelProgression s r k now = nextFloor s r k now ∧
      (checkLevelProgression s r k now).currentFloor = s.currentFloor + 1 ∧
      (checkLevelProgression s r k now).tiles = (generateLevel r k s.player).1 ∧
      (checkLevelProgression s r k now).eState.enemies.length =
        min (3 + (s.currentFloor + 1) / 2) 15 +
          (if (s.currentFloor + 1) % 5 = 0 then 1 else 0) ∧
      bossCount (checkLevelProgression s r k now).eState.enemies =
        (if (s.currentFloor + 1) % 5 = 0 then 1 else 0)) ∧
    (¬AdvanceCond s → checkLevelProgression s r k now = s) := by
  constructor
  · intro hA
    obtain ⟨hb, ht, hn⟩ := hA
    have heq : checkLevelProgression s r k now = nextFloor s r k now := by
      unfold checkLevelProgression
      rw [if_pos hb, if_pos ⟨ht, hn⟩]
    set f1 := s.currentFloor + 1 with hf1
    set gen := generateLevel r k s.player with hgen
    set sp := spawnEnemiesForFloor (fun x y => isWalkable gen.1 x y) r now f1
      s.eState gen.2.2 with hsp
    have hspawn := spawnEnemiesForFloor_count_types
      (fun x y => isWalkable gen.1 x y) r now f1 s.eState gen.2.2 (by omega)
    have hnb : bossCount sp.1.enemies = 0 := by
      apply List.countP_eq_zero.mpr
      intro e he
      rcases hspawn.2 e he with h | h | h <;>
        simp [h]
    have hnext : nextFloor s r k now =
        { currentFloor := f1, enemiesKilled := s.enemiesKilled, tiles := gen.1,
          player := gen.2.1,
          eState := if f1 % 5 = 0 then (spawnBoss r now f1 sp.1 sp.2).1 else sp.1 } := by
      unfold nextFloor
      rfl
    refine ⟨heq, ?_, ?_, ?_, ?_⟩
    · rw [heq, hnext]
    · rw [heq, hnext]
    · rw [heq, hnext]
      by_cases h5 : f1 % 5 = 0
      · rw [if_pos h5, if_pos h5]
        show ((spawnBoss r now f1 sp.1 sp.2).1.enemies.length) = _
        unfold spawnBoss
        simp only [List.length_append, List.length_cons, List.length_nil]
        rw [hspawn.1]
      · rw [if_neg h5, if_neg h5]
        show sp.1.enemies.length = _
        rw [hspawn.1]
        omega
    · rw [heq, hnext]
      by_cases h5 : f1 % 5 = 0
      · rw [if_pos h5, if_pos h5]
        show bossCount ((spawnBoss r now f1 sp.1 sp.2).1.enemies) = 1
        unfold spawnBoss bossCount
        rw [List.countP_append]
        unfold bossCount at hnb
        rw [hnb]
        rfl
      · rw [if_neg h5, if_neg h5]
        exact hnb
  · intro hA
    unfold checkLevelProgression
    by_cases hb : 0 ≤ ⌊s.player.x / tileSize⌋ ∧ ⌊s.player.x / tileSize⌋ < (levelWidth : ℤ) ∧
        0 ≤ ⌊s.player.y / tileSize⌋ ∧ ⌊s.player.y / tileSize⌋ < (levelHeight : ℤ)
    · rw [if_pos hb]
      have hc : ¬((tileAt s.tiles (⌊s.player.x / tileSize⌋).toNat
          (⌊s.player.y / tileSize⌋).toNat).type = TileType.exit ∧
          s.eState.enemies.length = 0) := fun hc => hA ⟨hb, hc.1, hc.2⟩
      rw [if_neg hc]
    · rw [if_neg hb]

/-- A concrete one-tile engine state used to exercise the
floor-progression step: the player stands at the origin on an exit tile
and no enemy is alive. -/
noncomputable def exitStepState : GState :=
  ⟨1, 0, [[⟨0, 0, TileType.exit, true⟩]], { defaultPlayer with x := 0, y := 0 }, ⟨[], [], 0⟩⟩

/-- Witness for C1 at a concrete input: a state whose single tile (the
one under the player at the origin) is the exit and whose enemy list is
empty satisfies the advance condition, and the step takes the floor
counter from 1 to 2. -/
theorem checkLevelProgression_advance_witness :
    AdvanceCond exitStepState ∧
    (checkLevelProgression exitStepState (fun _ => 0) 0 0).currentFloor = 2 := by
  have hfl : ⌊(0 : ℝ) / tileSize⌋ = 0 := by
    norm_num [tileSize]
  have hA : AdvanceCond exitStepState := by
    refine ⟨?_, ?_, rfl⟩
    · show (0 : ℤ) ≤ ⌊(0 : ℝ) / tileSize⌋ ∧ ⌊(0 : ℝ) / tileSize⌋ < (levelWidth : ℤ) ∧
        (0 : ℤ) ≤ ⌊(0 : ℝ) / tileSize⌋ ∧ ⌊(0 : ℝ) / tileSize⌋ < (levelHeight : ℤ)
      rw [hfl]
      refine ⟨le_refl 0, ?_, le_refl 0, ?_⟩ <;> norm_num [levelWidth, levelHeight]
    · show (tileAt [[⟨0, 0, TileType.exit, true⟩]]
        (⌊(0 : ℝ) / tileSize⌋).toNat (⌊(0 : ℝ) / tileSize⌋).toNat).type = TileType.exit
      rw [hfl]
      rfl
  have h := (checkLevelProgression_advance exitStepState (fun _ => 0) 0 0).1 hA
  exact ⟨hA, h.2.1⟩

theorem tileAt_fresh (g : Grid)
    (hfresh : ∀ row ∈ g, ∀ t ∈ row, t.type = TileType.floor ∨ t.type = TileType.wall)
    (i j : ℕ) :
    (tileAt g i j).type = TileType.floor ∨ (tileAt g i j).type = TileType.wall := by
  unfold tileAt
  by_cases hj : j < g.length
  · have hrow : nthD g j [] ∈ g := nthD_mem g j [] hj
    by_cases hi : i < (nthD g j []).length
    · exact hfresh _ hrow _ (nthD_mem _ i defTile hi)
    · rw [nthD_ge_length _ i defTile (le_of_not_lt hi)]
      exact Or.inr rfl
  · rw [nthD_ge_length g j [] (le_of_not_lt hj), nthD_nil]
    exact Or.inr rfl

theorem opt_if_mem {α : Type} {c : Prop} [Decidable c] {v p : α}
    (h : p ∈ (if c then some v else none)) : c ∧ p = v := by
  by_cases hc : c
  · rw [if_pos hc] at h
    exact ⟨hc, (Option.mem_some_iff.mp h).symm⟩
  · rw [if_neg hc] at h
    exact absurd h (by simp)

theorem mem_collectWalkable (g : Grid) (c : ℕ × ℕ) :
    c ∈ collectWalkable g ↔
      c.1 < levelWidth ∧ c.2 < levelHeight ∧ (tileAt g c.1 c.2).walkable = true := by
  unfold collectWalkable
  rw [List.mem_flatten]
  constructor
  · rintro ⟨l, hl, hc⟩
    rw [List.mem_map] at hl
    obtain ⟨yy, hy, rfl⟩ := hl
    rw [List.mem_filterMap] at hc
    obtain ⟨xx, hx, hfx⟩ := hc
    obtain ⟨hw, rfl⟩ := opt_if_mem hfx
    exact ⟨List.mem_range.mp hx, List.mem_range.mp hy, hw⟩
  · rintro ⟨h1, h2, h3⟩
    refine ⟨(List.range levelWidth).filterMap
      (fun x => if (tileAt g x c.2).walkable then some (x, c.2) else none), ?_, ?_⟩
    · rw [List.mem_map]
      exact ⟨c.2, List.mem_range.mpr h2, rfl⟩
    · rw [List.mem_filterMap]
      exact ⟨c.1, List.mem_range.mpr h1, by rw [if_pos h3]⟩

theorem mem_inner_row (g : Grid) (yy : ℕ) (c : ℕ × ℕ)
    (hc : c ∈ (List.range levelWidth).filterMap
      (fun x => if (tileAt g x yy).walkable then some (x, yy) else none)) :
    c.2 = yy := by
  rw [List.mem_filterMap] at hc
  obtain ⟨xx, _, hfx⟩ := hc
  obtain ⟨_, rfl⟩ := opt_if_mem hfx
  rfl

/-- The strict row-major order on grid coordinates: earlier row, or same
row and earlier column. -/
def RowMajorLt (a b : ℕ × ℕ) : Prop := a.2 < b.2 ∨ (a.2 = b.2 ∧ a.1 < b.1)

theorem collectWalkable_pairwise (g : Grid) :
    (collectWalkable g).Pairwise RowMajorLt := by
  unfold collectWalkable
  rw [List.pairwise_flatten]
  constructor
  · intro l hl
    rw [List.mem_map] at hl
    obtain ⟨yy, _, rfl⟩ := hl
    rw [List.pairwise_filterMap]
    refine (List.pairwise_lt_range levelWidth).imp ?_
    intro a b hab p hp q hq
    obtain ⟨_, rfl⟩ := opt_if_mem hp
    obtain ⟨_, rfl⟩ := opt_if_mem hq
    exact Or.inr ⟨rfl, hab⟩
  · rw [List.pairwise_map]
    refine (List.pairwise_lt_range levelHeight).imp ?_
    intro y1 y2 hy p hp q hq
    have h1 := mem_inner_row g y1 p hp
    have h2 := mem_inner_row g y2 q hq
    exact Or.inl (by rw [h1, h2]; exact hy)

theorem tileAt_setTypeAt (g : Grid) (x y : ℕ) (ty : TileType) (i j : ℕ) :
    tileAt (setTypeAt g x y ty) i j =
      if y = j ∧ j < g.length ∧ x = i ∧ i < (nthD g j []).length then
        { tileAt g i j with type := ty }
      else tileAt g i j := by
  unfold setTypeAt tileAt
  rw [nthD_updAt]
  by_cases h1 : y = j ∧ j < g.length
  · rw [if_pos h1, nthD_updAt]
    by_cases h2 : x = i ∧ i < (nthD g j []).length
    · rw [if_pos h2, if_pos ⟨h1.1, h1.2, h2.1, h2.2⟩]
    · rw [if_neg h2, if_neg (by tauto)]
  · rw [if_neg h1, if_neg (by tauto)]

theorem len_setTypeAt (g : Grid) (x y : ℕ) (ty : TileType) :
    (setTypeAt g x y ty).length = g.length :=
  updAt_length g y _

theorem rowLen_setTypeAt (g : Grid) (x y : ℕ) (ty : TileType) (j : ℕ) :
    (nthD (setTypeAt g x y ty) j []).length = (nthD g j []).length := by
  unfold setTypeAt
  rw [nthD_updAt]
  by_cases h : y = j ∧ j < g.length
  · rw [if_pos h, updAt_length]
  · rw [if_neg h]

/-- Claim C8: on a freshly generated grid (50×50, only floor/wall types)
with at least 2 walkable cells, `placeEntranceAndExit` makes exactly one
cell an `entrance` — the first walkable cell in row-major generation
order — and exactly one cell an `exit` — the last — and sets the player's
position to the entrance cell's centre; with fewer than 2 walkable cells
nothing is placed and the player position is unchanged. -/
theorem placeEntranceAndExit_exactly_one (g : Grid) (p : Player)
    (hdims : GridDims g)
    (hfresh : ∀ row ∈ g, ∀ t ∈ row, t.type = TileType.floor ∨ t.type = TileType.wall) :
    (2 ≤ (collectWalkable g).length →
      (∀ i j : ℕ,
        (tileAt (placeEntranceAndExit g p).1 i j).type = TileType.entrance ↔
          (i, j) = nthD (collectWalkable g) 0 (0, 0)) ∧
      (∀ i j : ℕ,
        (tileAt (placeEntranceAndExit g p).1 i j).type = TileType.exit ↔
          (i, j) = (collectWalkable g).getLastD (0, 0)) ∧
      (placeEntranceAndExit g p).2.x =
        ((nthD (collectWalkable g) 0 (0, 0)).1 : ℝ) * tileSize + tileSize / 2 ∧
      (placeEntranceAndExit g p).2.y =
        ((nthD (collectWalkable g) 0 (0, 0)).2 : ℝ) * tileSize + tileSize / 2) ∧
    ((collectWalkable g).length < 2 → placeEntranceAndExit g p = (g, p)) := by
  constructor
  · intro h2
    set fl := collectWalkable g with hfl
    set ent := nthD fl 0 (0, 0) with hentDef
    set ex := fl.getLastD (0, 0) with hexDef
    have hentMem : ent ∈ fl := nthD_mem fl 0 (0, 0) (by omega)
    have hexMem : ex ∈ fl := getLastD_mem fl (0, 0) (by
      intro hnil
      rw [hnil] at h2
      simp at h2)
    have hentP := (mem_collectWalkable g ent).mp hentMem
    have hexP := (mem_collectWalkable g ex).mp hexMem
    have hRel : RowMajorLt ent ex :=
      pairwise_first_last fl RowMajorLt (collectWalkable_pairwise g) h2 (0, 0)
    have hne : ent ≠ ex := by
      intro he
      rw [he] at hRel
      rcases hRel with h | ⟨_, h⟩ <;> exact lt_irrefl _ h
    have hentY : ent.2 < g.length := by rw [hdims.1]; exact hentP.2.1
    have hentX : ent.1 < (nthD g ent.2 []).length := by
      rw [hdims.2 _ (nthD_mem g ent.2 [] hentY)]
      exact hentP.1
    have hexY : ex.2 < g.length := by rw [hdims.1]; exact hexP.2.1
    have hexX : ex.1 < (nthD g ex.2 []).length := by
      rw [hdims.2 _ (nthD_mem g ex.2 [] hexY)]
      exact hexP.1
    have hPlace : placeEntranceAndExit g p =
        (setTypeAt (setTypeAt g ent.1 ent.2 TileType.entrance) ex.1 ex.2 TileType.exit,
         setPosition p ((ent.1 : ℝ) * tileSize + tileSize / 2)
                       ((ent.2 : ℝ) * tileSize + tileSize / 2)) := by
      unfold placeEntranceAndExit
      rw [if_pos h2]
    have key : ∀ i j : ℕ,
        tileAt (placeEntranceAndExit g p).1 i j =
          if ex.2 = j ∧ j < g.length ∧ ex.1 = i ∧ i < (nthD g j []).length then
            { tileAt (setTypeAt g ent.1 ent.2 TileType.entrance) i j with
                type := TileType.exit }
          else tileAt (setTypeAt g ent.1 ent.2 TileType.entrance) i j := by
      intro i j
      rw [hPlace]
      rw [show ((setTypeAt (setTypeAt g ent.1 ent.2 TileType.entrance) ex.1 ex.2
          TileType.exit, setPosition p _ _).1) =
        setTypeAt (setTypeAt g ent.1 ent.2 TileType.entrance) ex.1 ex.2 TileType.exit
        from rfl]
      rw [tileAt_setTypeAt, len_setTypeAt, rowLen_setTypeAt]
    refine ⟨?_, ?_, ?_, ?_⟩
    · intro i j
      constructor
      · intro hty
        rw [key] at hty
        by_cases hce : ex.2 = j ∧ j < g.length ∧ ex.1 = i ∧ i < (nthD g j []).length
        · rw [if_pos hce] at hty
          exact absurd hty (by simp)
        · rw [if_neg hce, tileAt_setTypeAt] at hty
          by_cases hcn : ent.2 = j ∧ j < g.length ∧ ent.1 = i ∧ i < (nthD g j []).length
          · have hpair : (i, j) = (ent.1, ent.2) := by
              rw [← hcn.2.2.1, ← hcn.1]
            rw [hpair]
          · rw [if_neg hcn] at hty
            rcases tileAt_fresh g hfresh i j with h | h <;>
              · rw [h] at hty
                exact absurd hty (by simp)
      · intro hij
        have hi : i = ent.1 := by rw [show ent = (i, j) from hij.symm]
        have hj : j = ent.2 := by rw [show ent = (i, j) from hij.symm]
        subst hi
        subst hj
        rw [key]
        have hce : ¬(ex.2 = ent.2 ∧ ent.2 < g.length ∧ ex.1 = ent.1 ∧
            ent.1 < (nthD g ent.2 []).length) := by
          rintro ⟨hy2, _, hx2, _⟩
          exact hne (Prod.ext hx2.symm hy2.symm)
        rw [if_neg hce, tileAt_setTypeAt,
            if_pos ⟨rfl, hentY, rfl, hentX⟩]
    · intro i j
      constructor
      · intro hty
        rw [key] at hty
        by_cases hce : ex.2 = j ∧ j < g.length ∧ ex.1 = i ∧ i < (nthD g j []).length
        · rw [← hce.2.2.1, ← hce.1]
        · rw [if_neg hce, tileAt_setTypeAt] at hty
          by_cases hcn : ent.2 = j ∧ j < g.length ∧ ent.1 = i ∧ i < (nthD g j []).length
          · rw [if_pos hcn] at hty
            exact absurd hty (by simp)
          · rw [if_neg hcn] at hty
            rcases tileAt_fresh g hfresh i j with h | h <;>
              · rw [h] at hty
                exact absurd hty (by simp)
      · intro hij
        have hi : i = ex.1 := by rw [show ex = (i, j) from hij.symm]
        have hj : j = ex.2 := by rw [show ex = (i, j) from hij.symm]
        subst hi
        subst hj
        rw [key, if_pos ⟨rfl, hexY, rfl, hexX⟩]
    · rw [hPlace]
      rfl
    · rw [hPlace]
      rfl
  · intro h
    unfold placeEntranceAndExit
    rw [if_neg (by omega)]

/-- Witness for C8 at a concrete input: the freshly generated all-wall
grid has the required 50×50 shape and carries only floor/wall types, so
the placement theorem applies to it (its walkable collection is empty,
which exercises the skip branch). -/
theorem placeEntranceAndExit_exactly_one_witness :
    GridDims initGrid ∧
    (∀ row ∈ initGrid, ∀ t ∈ row,
      t.type = TileType.floor ∨ t.type = TileType.wall) ∧
    ((collectWalkable initGrid).length < 2 →
      placeEntranceAndExit initGrid defaultPlayer = (initGrid, defaultPlayer)) := by
  have hfresh : ∀ row ∈ initGrid, ∀ t ∈ row,
      t.type = TileType.floor ∨ t.type = TileType.wall := by
    intro row hrow t ht
    simp only [initGrid, List.mem_map] at hrow
    obtain ⟨yy, _, rfl⟩ := hrow
    simp only [List.mem_map] at ht
    obtain ⟨xx, _, rfl⟩ := ht
    exact Or.inr rfl
  exact ⟨initGrid_dims, hfresh,
    (placeEntranceAndExit_exactly_one initGrid defaultPlayer initGrid_dims hfresh).2⟩

end TowerTrials
